import Mathlib

/-!
# Verification of the Directional-Change (DC) detector and analytics

Shallow embedding of `src/dc/dc_transformer.py` (function
`transform_to_dc_events`) and of the parts of `src/dc/dc_analyzer.py`
(`calculate_basic_statistics`, `analyze_threshold_sensitivity`) needed by the
claims.  Prices are modelled as rationals; timestamps are modelled by row
positions (the source series has strictly increasing timestamps, so the
comparison `event_indices <= timestamp` in the source coincides with the
comparison of row indices).  Rows with a missing price are dropped before
detection by the source, so the embedded series carries only valid prices.
-/

/-- Event classification of a row: column `event_type` of the source. -/
inductive EventType where
  | no_event : EventType
  | dc_up : EventType
  | dc_down : EventType
deriving DecidableEq, Repr

/-- Detector mode: the source's `mode` local variable, `'up'` or `'down'`. -/
inductive Mode where
  | up : Mode
  | down : Mode
deriving DecidableEq, Repr

/-- Detector state threaded through the scan loop of
`transform_to_dc_events` (lines 59-94): the running `extreme_price` and
`mode`.  (The source's `last_event_idx` variable is written but never read,
so it is not part of the state.) -/
structure DCState where
  mode : Mode
  extreme_price : ℚ
deriving DecidableEq, Repr

/-- One output row of the detector before the `event_period` pass: the price
of the row together with the `event_type`, `extreme_price` and `change_pct`
cells written by the loop (lines 63-94); a row not written by the loop keeps
`NaN` and is turned into the sentinel `0` by the `fillna(0)` calls
(lines 96-97), so non-event rows carry `0` here directly. -/
structure DCRow where
  price : ℚ
  event_type : EventType
  extreme_price : ℚ
  change_pct : ℚ
deriving DecidableEq, Repr

/-- One row of the final annotated series: a `DCRow` plus the
`event_period` column computed by the second pass (lines 99-110). -/
structure ARow where
  price : ℚ
  event_type : EventType
  extreme_price : ℚ
  change_pct : ℚ
  event_period : ℤ
deriving DecidableEq, Repr

/-- Default row used for positional lookups. -/
def dummyARow : ARow := ⟨0, .no_event, 0, 0, 0⟩

/-- One iteration of the detection loop (lines 65-94 of
`dc_transformer.py`): from the current state and the row's price, produce
the next state and the row's cells.  Mode `up`: confirmation when
`price >= extreme_price * (1 + threshold)`, otherwise the running minimum is
updated when `price < extreme_price`.  Mode `down` is symmetric. -/
def dcStep (threshold : ℚ) (s : DCState) (p : ℚ) : DCState × DCRow :=
  match s.mode with
  | .up =>
    if p ≥ s.extreme_price * (1 + threshold) then
      (⟨.down, p⟩, ⟨p, .dc_up, s.extreme_price,
        (p - s.extreme_price) / s.extreme_price⟩)
    else if p < s.extreme_price then
      (⟨.up, p⟩, ⟨p, .no_event, 0, 0⟩)
    else
      (s, ⟨p, .no_event, 0, 0⟩)
  | .down =>
    if p ≤ s.extreme_price * (1 - threshold) then
      (⟨.up, p⟩, ⟨p, .dc_down, s.extreme_price,
        (p - s.extreme_price) / s.extreme_price⟩)
    else if p > s.extreme_price then
      (⟨.down, p⟩, ⟨p, .no_event, 0, 0⟩)
    else
      (s, ⟨p, .no_event, 0, 0⟩)

/-- The detection loop itself: fold `dcStep` over the prices in order,
collecting one `DCRow` per price. -/
def dcScan (threshold : ℚ) (s : DCState) : List ℚ → List DCRow
  | [] => []
  | p :: ps =>
    let sr := dcStep threshold s p
    sr.2 :: dcScan threshold sr.1 ps

/-- The indices `j ≤ i` whose row is a confirmed event: the source's
`previous_events = event_indices[event_indices <= timestamp]` (line 105),
with timestamps modelled by row positions. -/
def eventIdxsUpTo (types : List EventType) (i : ℕ) : List ℕ :=
  (List.range (i + 1)).filter (fun j => types.getD j .no_event ≠ .no_event)

/-- `event_period` of row `i` (lines 107-110): `i - j` for `j` the last
event index `≤ i` when one exists (`previous_events[-1]`), else `i`. -/
def eventPeriodAt (types : List EventType) (i : ℕ) : ℤ :=
  match (eventIdxsUpTo types i).getLast? with
  | some j => (i : ℤ) - (j : ℤ)
  | none => (i : ℤ)

/-- The `event_period` column: the per-row re-scan of lines 102-110. -/
def eventPeriods (types : List EventType) : List ℤ :=
  (List.range types.length).map (eventPeriodAt types)

/-- Modelled from the spec: the single-pass linear computation of §4.2's
complexity note, "a single running index-of-last-event cursor updated while
iterating once".  `last` is the cursor (index of the most recent confirmed
event, if any), `i` the absolute index of the head of the remaining list;
the cursor is updated before the row's period is read, matching the
inclusive `<=` boundary of the re-scan. -/
def periodsFrom (last : Option ℕ) (i : ℕ) : List EventType → List ℤ
  | [] => []
  | t :: ts =>
    let last' := if t ≠ EventType.no_event then some i else last
    (match last' with
     | some j => (i : ℤ) - (j : ℤ)
     | none => (i : ℤ)) :: periodsFrom last' (i + 1) ts

/-- Modelled from the spec: the linear `event_period` computation started
from no event seen and index 0. -/
def eventPeriodsLinear (types : List EventType) : List ℤ :=
  periodsFrom none 0 types

/-- Zip the loop's rows with the `event_period` column. -/
def annotate (rows : List DCRow) : List ARow :=
  List.zipWith (fun (r : DCRow) (p : ℤ) =>
      ⟨r.price, r.event_type, r.extreme_price, r.change_pct, p⟩)
    rows (eventPeriods (rows.map DCRow.event_type))

/-- Result of `transform_to_dc_events`.  With fewer than 2 valid prices the
source returns the plain copy of the input frame before any of the
`event_type` / `extreme_price` / `change_pct` / `event_period` columns is
added (early return at lines 50-52), so that branch carries only the input
prices, unannotated. -/
inductive DCResult where
  | insufficient (prices : List ℚ) : DCResult
  | annotated (rows : List ARow) : DCResult
deriving DecidableEq, Repr

/-- `transform_to_dc_events` of `dc_transformer.py`: with at least two valid
prices, run the detection loop from `extreme_price` = first price and mode
`up` over every observation (the loop of line 63 includes the first row),
then add the `event_period` column. -/
def transform_to_dc_events (threshold : ℚ) : List ℚ → DCResult
  | [] => .insufficient []
  | [p] => .insufficient [p]
  | p :: q :: ps => .annotated (annotate (dcScan threshold ⟨.up, p⟩ (p :: q :: ps)))

/-- The rows of a detector result (`[]` for the unannotated early return). -/
def annotatedRows : DCResult → List ARow
  | .insufficient _ => []
  | .annotated rows => rows

/-- The `event_type` sequence of the confirmed events, in row order:
the rows whose `event_type` is not `no_event`. -/
def confirmedTypes (rows : List ARow) : List EventType :=
  (rows.map ARow.event_type).filter (fun t => t ≠ EventType.no_event)

/-- The event type a confirmation produces in each mode. -/
def modeTarget : Mode → EventType
  | .up => .dc_up
  | .down => .dc_down

/-- Modelled from the spec (§4.1, claim C2): one step of the detector as the
spec words it — state is the pair (mode, extreme_price); in mode `up`, if
`p ≥ extreme_price·(1+τ)` the row is `dc_up` with the pre-update reference
and `change_pct = (p − extreme_price)/extreme_price`, the reference becomes
`p` and the mode switches to `down`; else if `p < extreme_price` the
reference becomes `p` with no event; mode `down` is symmetric with the
`p ≤ extreme_price·(1−τ)` confirmation and `p > extreme_price` update;
otherwise the state is unchanged and the row is `no_event` (with the
sentinel cells `0`, `0`). -/
def specStep (τ : ℚ) : (Mode × ℚ) → ℚ → ((Mode × ℚ) × (EventType × ℚ × ℚ))
  | (Mode.up, extreme), p =>
    if p ≥ extreme * (1 + τ) then
      ((Mode.down, p), (EventType.dc_up, extreme, (p - extreme) / extreme))
    else if p < extreme then
      ((Mode.up, p), (EventType.no_event, 0, 0))
    else
      ((Mode.up, extreme), (EventType.no_event, 0, 0))
  | (Mode.down, extreme), p =>
    if p ≤ extreme * (1 - τ) then
      ((Mode.up, p), (EventType.dc_down, extreme, (p - extreme) / extreme))
    else if p > extreme then
      ((Mode.down, p), (EventType.no_event, 0, 0))
    else
      ((Mode.down, extreme), (EventType.no_event, 0, 0))

/-- Modelled from the spec: the fold of `specStep` over the observations in
order. -/
def specScan (τ : ℚ) : (Mode × ℚ) → List ℚ → List (EventType × ℚ × ℚ)
  | _, [] => []
  | s, p :: ps => (specStep τ s p).2 :: specScan τ (specStep τ s p).1 ps

/-- Modelled from the spec: the whole detector as a fold from the initial
state (mode = `up`, extreme_price = first valid price), producing the
per-row `(event_type, extreme_price, change_pct)` outcomes. -/
def specDetector (τ : ℚ) : List ℚ → List (EventType × ℚ × ℚ)
  | [] => []
  | p :: ps => specScan τ (Mode.up, p) (p :: ps)

/-- The three detector cells of an annotated row. -/
def cellsOf (r : ARow) : EventType × ℚ × ℚ :=
  (r.event_type, r.extreme_price, r.change_pct)

/-! ## Analytics (`dc_analyzer.py`) -/

/-- The confirmed-event rows:
`dc_events = df_dc[df_dc['event_type'] != 'no_event']`. -/
def dcEvents (rows : List ARow) : List ARow :=
  rows.filter (fun r => r.event_type ≠ EventType.no_event)

/-- Number of `dc_up` rows among the confirmed events. -/
def upCount (rows : List ARow) : ℕ :=
  ((dcEvents rows).filter (fun r => r.event_type = EventType.dc_up)).length

/-- Number of `dc_down` rows among the confirmed events. -/
def downCount (rows : List ARow) : ℕ :=
  ((dcEvents rows).filter (fun r => r.event_type = EventType.dc_down)).length

/-- Arithmetic mean of a list of rationals (`Series.mean`); callers guard
against the empty list as the source does. -/
def listMean (l : List ℚ) : ℚ := l.sum / l.length

/-- Median as pandas computes it: middle element of the sorted values for
odd length, average of the two middle elements for even length. -/
def listMedian (l : List ℚ) : ℚ :=
  let s := List.insertionSort (· ≤ ·) l
  if l.length % 2 = 1 then s.getD (l.length / 2) 0
  else (s.getD (l.length / 2 - 1) 0 + s.getD (l.length / 2) 0) / 2

/-- Minimum of a list (`Series.min`); callers guard the empty case. -/
def listMin : List ℚ → ℚ
  | [] => 0
  | x :: xs => xs.foldl min x

/-- Maximum of a list (`Series.max`); callers guard the empty case. -/
def listMax : List ℚ → ℚ
  | [] => 0
  | x :: xs => xs.foldl max x

/-- The statistics dictionary built by `calculate_basic_statistics`
(lines 46-63 of `dc_analyzer.py`).  The three sample-standard-deviation
entries (`std_event_period`, `std_change_pct`) are omitted: they involve a
square root, are irrational in general, and no claim mentions them.  The
`up_down_ratio` entry is named `ratio_up_down` here; pandas' `NaN` results
are modelled as `none`: the ratio when the down count is `0`, and the four
change-magnitude statistics when there is no event (`Series.mean` & co. of
an empty series are `NaN`; the event-period statistics are guarded by the
source with an explicit `0` fallback instead). -/
structure BasicStats where
  total_days : ℕ
  total_events : ℕ
  events_percentage : ℚ
  up_events : ℕ
  down_events : ℕ
  ratio_up_down : Option ℚ
  mean_event_period : ℚ
  median_event_period : ℚ
  min_event_period : ℚ
  max_event_period : ℚ
  mean_change_pct : Option ℚ
  median_change_pct : Option ℚ
  min_change_pct : Option ℚ
  max_change_pct : Option ℚ
deriving DecidableEq, Repr

/-- `calculate_basic_statistics` of `dc_analyzer.py`.  On an empty frame the
expression `n_events / total_rows` (line 49) divides the Python integer `0`
by the Python integer `0`, raising `ZeroDivisionError`, so the empty input
is the error branch.  Otherwise: events are the non-`no_event` rows, the
event periods are restricted to the positive ones (line 42), the change
magnitudes are the absolute `change_pct` values of the event rows
(line 44), and `up_down_ratio = n_up / n_down` guarded by `n_down > 0`
(line 52). -/
def calculate_basic_statistics (rows : List ARow) : Except String BasicStats :=
  if rows.length = 0 then .error "ZeroDivisionError"
  else
    let events := dcEvents rows
    let periods := (events.map (fun r => (r.event_period : ℚ))).filter (fun x => 0 < x)
    let changes := events.map (fun r => |r.change_pct|)
    .ok
      { total_days := rows.length
        total_events := events.length
        events_percentage := (events.length : ℚ) / (rows.length : ℚ)
        up_events := upCount rows
        down_events := downCount rows
        ratio_up_down :=
          if 0 < downCount rows then
            some ((upCount rows : ℚ) / (downCount rows : ℚ))
          else none
        mean_event_period := if 0 < periods.length then listMean periods else 0
        median_event_period := if 0 < periods.length then listMedian periods else 0
        min_event_period := if 0 < periods.length then listMin periods else 0
        max_event_period := if 0 < periods.length then listMax periods else 0
        mean_change_pct := if 0 < changes.length then some (listMean changes) else none
        median_change_pct := if 0 < changes.length then some (listMedian changes) else none
        min_change_pct := if 0 < changes.length then some (listMin changes) else none
        max_change_pct := if 0 < changes.length then some (listMax changes) else none }

/-- One row of the threshold-sensitivity table (lines 205-215 of
`dc_analyzer.py`); the purely cosmetic `threshold_pct` string is omitted. -/
structure SensRow where
  threshold : ℚ
  total_events : ℕ
  up_events : ℕ
  down_events : ℕ
  mean_event_period : ℚ
  median_event_period : ℚ
  mean_change_pct : ℚ
  median_change_pct : ℚ
deriving DecidableEq, Repr

/-- The summary row appended for one threshold (lines 198-215), built from
the annotated rows of that threshold's own detector run; only reached when
`n_events > 0`, so the change-magnitude list is nonempty there. -/
def mkSensRow (threshold : ℚ) (rows : List ARow) : SensRow :=
  let events := dcEvents rows
  let periods := ((events.filter (fun r => 0 < r.event_period)).map
    (fun r => (r.event_period : ℚ)))
  let changes := events.map (fun r => |r.change_pct|)
  { threshold := threshold
    total_events := events.length
    up_events := (events.filter (fun r => r.event_type = EventType.dc_up)).length
    down_events := (events.filter (fun r => r.event_type = EventType.dc_down)).length
    mean_event_period := if 0 < periods.length then listMean periods else 0
    median_event_period := if 0 < periods.length then listMedian periods else 0
    mean_change_pct := listMean changes
    median_change_pct := listMedian changes }

/-- The summary derived from one independent invocation of the detector at
threshold `τ`: `none` both when the detector's early return leaves no
`event_type` column and when the run confirms no event (the source appends
no row in the latter case). -/
def sensSummary (prices : List ℚ) (τ : ℚ) : Option SensRow :=
  match transform_to_dc_events τ prices with
  | .insufficient _ => none
  | .annotated rows =>
    if 0 < (dcEvents rows).length then some (mkSensRow τ rows) else none

/-- `analyze_threshold_sensitivity` of `dc_analyzer.py` (lines 188-221):
iterate over the thresholds, invoking `transform_to_dc_events` afresh for
each; a run with `n_events > 0` appends its summary row, a run with no
event appends nothing.  When the detector's early return produced no
`event_type` column (fewer than 2 valid prices), the subscript
`df_dc[df_dc['event_type'] != 'no_event']` (line 198) raises `KeyError`,
modelled as the error branch. -/
def analyze_threshold_sensitivity (prices : List ℚ) :
    List ℚ → Except String (List SensRow)
  | [] => .ok []
  | τ :: ts =>
    match transform_to_dc_events τ prices with
    | .insufficient _ => .error "KeyError"
    | .annotated rows =>
      match analyze_threshold_sensitivity prices ts with
      | .error e => .error e
      | .ok rest =>
        .ok (if 0 < (dcEvents rows).length then mkSensRow τ rows :: rest else rest)

/-! ## Structural lemmas -/

lemma dcScan_length (τ : ℚ) : ∀ (ps : List ℚ) (s : DCState),
    (dcScan τ s ps).length = ps.length
  | [], _ => rfl
  | _ :: ps, s => by simp [dcScan, dcScan_length τ ps]

lemma eventPeriods_length (types : List EventType) :
    (eventPeriods types).length = types.length := by
  simp [eventPeriods]

/-- Every step produces either a `no_event` row with the mode preserved and
the extreme either kept or moved to the row's price, or a confirmation row
of the mode's direction with the threshold condition satisfied, the mode
flipped and the extreme moved to the row's price. -/
lemma dcStep_shape (τ : ℚ) (s : DCState) (p : ℚ) :
    (∃ e' : ℚ, dcStep τ s p = (⟨s.mode, e'⟩, ⟨p, .no_event, 0, 0⟩) ∧
      (e' = s.extreme_price ∨ e' = p)) ∨
    (s.mode = .up ∧ s.extreme_price * (1 + τ) ≤ p ∧
      dcStep τ s p = (⟨.down, p⟩,
        ⟨p, .dc_up, s.extreme_price, (p - s.extreme_price) / s.extreme_price⟩)) ∨
    (s.mode = .down ∧ p ≤ s.extreme_price * (1 - τ) ∧
      dcStep τ s p = (⟨.up, p⟩,
        ⟨p, .dc_down, s.extreme_price, (p - s.extreme_price) / s.extreme_price⟩)) := by
  rcases s with ⟨m, e⟩
  cases m <;> simp only [dcStep] <;> split_ifs with h1 h2
  · exact Or.inr (Or.inl ⟨trivial, h1, rfl⟩)
  · exact Or.inl ⟨p, rfl, Or.inr rfl⟩
  · exact Or.inl ⟨e, rfl, Or.inl rfl⟩
  · exact Or.inr (Or.inr ⟨trivial, h1, rfl⟩)
  · exact Or.inl ⟨p, rfl, Or.inr rfl⟩
  · exact Or.inl ⟨e, rfl, Or.inl rfl⟩

/-- At the very first observation the price equals the initial extreme, so
for a positive price and positive threshold nothing is confirmed. -/
lemma dcStep_self (τ p : ℚ) (h0 : 0 < τ) (hp : 0 < p) :
    dcStep τ ⟨.up, p⟩ p = (⟨.up, p⟩, ⟨p, .no_event, 0, 0⟩) := by
  have h1 : ¬ (p ≥ p * (1 + τ)) := by nlinarith
  have h2 : ¬ (p < p) := lt_irrefl p
  simp [dcStep, h1, h2]

lemma zipWith_annotate_map {β : Type} (f : ARow → β) (g : DCRow → β)
    (hfg : ∀ (r : DCRow) (q : ℤ),
      f ⟨r.price, r.event_type, r.extreme_price, r.change_pct, q⟩ = g r) :
    ∀ (rows : List DCRow) (qs : List ℤ), rows.length ≤ qs.length →
      (List.zipWith (fun (r : DCRow) (q : ℤ) =>
        (⟨r.price, r.event_type, r.extreme_price, r.change_pct, q⟩ : ARow))
          rows qs).map f = rows.map g
  | [], _, _ => by simp
  | _ :: _, [], h => by simp at h
  | r :: rows, q :: qs, h => by
    simpa [hfg] using zipWith_annotate_map f g hfg rows qs (by simpa using h)

lemma annotate_map {β : Type} (f : ARow → β) (g : DCRow → β)
    (hfg : ∀ (r : DCRow) (q : ℤ),
      f ⟨r.price, r.event_type, r.extreme_price, r.change_pct, q⟩ = g r)
    (rows : List DCRow) : (annotate rows).map f = rows.map g := by
  unfold annotate
  exact zipWith_annotate_map f g hfg rows _
    (by simp [eventPeriods_length])

lemma mem_annotate_exists : ∀ (rows : List DCRow) (qs : List ℤ) (r : ARow),
    r ∈ List.zipWith (fun (r : DCRow) (q : ℤ) =>
      (⟨r.price, r.event_type, r.extreme_price, r.change_pct, q⟩ : ARow)) rows qs →
    ∃ r' ∈ rows, r.price = r'.price ∧ r.event_type = r'.event_type ∧
      r.extreme_price = r'.extreme_price ∧ r.change_pct = r'.change_pct
  | [], _, r, h => by simp at h
  | _ :: _, [], r, h => by simp at h
  | r' :: rows, q :: qs, r, h => by
    rcases List.mem_cons.mp h with h | h
    · exact ⟨r', List.mem_cons_self _ _, by simp [h]⟩
    · obtain ⟨r'', hmem, hr⟩ := mem_annotate_exists rows qs r h
      exact ⟨r'', List.mem_cons_of_mem _ hmem, hr⟩

lemma mem_annotate {rows : List DCRow} {r : ARow} (h : r ∈ annotate rows) :
    ∃ r' ∈ rows, r.price = r'.price ∧ r.event_type = r'.event_type ∧
      r.extreme_price = r'.extreme_price ∧ r.change_pct = r'.change_pct :=
  mem_annotate_exists rows _ r h

/-- Core alternation invariant: along any scan, the confirmed event types
form a chain of pairwise-distinct neighbours, and the first confirmed event
(if any) has the direction of the starting mode. -/
lemma dcScan_alternation (τ : ℚ) : ∀ (ps : List ℚ) (s : DCState),
    List.Chain' (· ≠ ·)
      (((dcScan τ s ps).map DCRow.event_type).filter
        (fun t => t ≠ EventType.no_event)) ∧
    ∀ t ∈ (((dcScan τ s ps).map DCRow.event_type).filter
        (fun t => t ≠ EventType.no_event)).head?, t = modeTarget s.mode := by
  intro ps
  induction ps with
  | nil => intro s; simp [dcScan]
  | cons p ps ih =>
    intro s
    rcases dcStep_shape τ s p with ⟨e', heq, _⟩ | ⟨hm, _, heq⟩ | ⟨hm, _, heq⟩
    · have h := ih ⟨s.mode, e'⟩
      simp only [dcScan, heq, List.map_cons, List.filter_cons]
      simpa using h
    · have h := ih ⟨.down, p⟩
      simp only [dcScan, heq, List.map_cons, List.filter_cons]
      simp only [hm]
      constructor
      · rw [show (decide (EventType.dc_up ≠ EventType.no_event)) = true by decide]
        simp only [if_true, List.chain'_cons']
        refine ⟨?_, h.1⟩
        intro y hy
        have := h.2 y hy
        simp [this, modeTarget]
      · intro t ht
        simp at ht
        simp [ht, modeTarget]
    · have h := ih ⟨.up, p⟩
      simp only [dcScan, heq, List.map_cons, List.filter_cons]
      simp only [hm]
      constructor
      · rw [show (decide (EventType.dc_down ≠ EventType.no_event)) = true by decide]
        simp only [if_true, List.chain'_cons']
        refine ⟨?_, h.1⟩
        intro y hy
        have := h.2 y hy
        simp [this, modeTarget]
      · intro t ht
        simp at ht
        simp [ht, modeTarget]

/-- Core sign invariant: from a positive running extreme and over positive
prices, every confirmed `dc_up` row has a positive `change_pct` and every
confirmed `dc_down` row a negative one. -/
lemma dcScan_sign (τ : ℚ) (h0 : 0 < τ) : ∀ (ps : List ℚ) (s : DCState),
    0 < s.extreme_price → (∀ p ∈ ps, 0 < p) →
    ∀ r ∈ dcScan τ s ps,
      (r.event_type = .dc_up → 0 < r.change_pct) ∧
      (r.event_type = .dc_down → r.change_pct < 0) := by
  intro ps
  induction ps with
  | nil => intro s _ _ r hr; simp [dcScan] at hr
  | cons p ps ih =>
    intro s he hp r hr
    have hppos : 0 < p := hp p (List.mem_cons_self _ _)
    have hptail : ∀ q ∈ ps, 0 < q := fun q hq => hp q (List.mem_cons_of_mem _ hq)
    rcases dcStep_shape τ s p with ⟨e', heq, hcase⟩ | ⟨_, hc, heq⟩ | ⟨_, hc, heq⟩ <;>
      rw [dcScan, heq] at hr <;> rcases List.mem_cons.mp hr with hr | hr
    · subst hr; constructor <;> intro h <;> simp at h
    · have he' : (0:ℚ) < e' := by rcases hcase with h | h <;> simp [h, he, hppos]
      exact ih ⟨s.mode, e'⟩ he' hptail r hr
    · subst hr
      constructor
      · intro _
        have hnum : 0 < p - s.extreme_price := by nlinarith
        exact div_pos hnum he
      · intro h; simp at h
    · exact ih ⟨.down, p⟩ hppos hptail r hr
    · subst hr
      constructor
      · intro h; simp at h
      · intro _
        have hnum : p - s.extreme_price < 0 := by nlinarith
        exact div_neg_of_neg_of_pos hnum he
    · exact ih ⟨.up, p⟩ hppos hptail r hr

/-- Core cell invariant: a `no_event` row carries the sentinels `0`, `0`;
an event row's `change_pct` is the relative change from its stored
`extreme_price` to its stored price. -/
lemma dcScan_cells (τ : ℚ) : ∀ (ps : List ℚ) (s : DCState),
    ∀ r ∈ dcScan τ s ps,
      (r.event_type = .no_event → r.extreme_price = 0 ∧ r.change_pct = 0) ∧
      (r.event_type ≠ .no_event →
        r.change_pct = (r.price - r.extreme_price) / r.extreme_price) := by
  intro ps
  induction ps with
  | nil => intro s r hr; simp [dcScan] at hr
  | cons p ps ih =>
    intro s r hr
    rcases dcStep_shape τ s p with ⟨e', heq, _⟩ | ⟨_, _, heq⟩ | ⟨_, _, heq⟩ <;>
      rw [dcScan, heq] at hr <;> rcases List.mem_cons.mp hr with hr | hr
    · subst hr; exact ⟨fun _ => ⟨rfl, rfl⟩, fun h => absurd rfl h⟩
    · exact ih ⟨s.mode, e'⟩ r hr
    · subst hr; exact ⟨fun h => by simp at h, fun _ => rfl⟩
    · exact ih ⟨.down, p⟩ r hr
    · subst hr; exact ⟨fun h => by simp at h, fun _ => rfl⟩
    · exact ih ⟨.up, p⟩ r hr

/-- The source loop and the spec's fold produce identical per-row
`(event_type, extreme_price, change_pct)` outcomes from corresponding
states. -/
lemma dcScan_spec (τ : ℚ) : ∀ (ps : List ℚ) (m : Mode) (e : ℚ),
    (dcScan τ ⟨m, e⟩ ps).map
      (fun r => (r.event_type, r.extreme_price, r.change_pct)) =
      specScan τ (m, e) ps := by
  intro ps
  induction ps with
  | nil => intros; simp [dcScan, specScan]
  | cons p ps ih =>
    intro m e
    cases m <;>
      simp only [dcScan, specScan, dcStep, specStep] <;>
      split_ifs <;>
      simp [ih]

/-! ## Event-period lemmas -/

lemma eventIdxsUpTo_succ (types : List EventType) (i : ℕ) :
    eventIdxsUpTo types (i + 1) =
      eventIdxsUpTo types i ++
        (if types.getD (i + 1) .no_event ≠ .no_event then [i + 1] else []) := by
  unfold eventIdxsUpTo
  rw [List.range_succ, List.filter_append]
  congr 1
  by_cases h : types.getD (i + 1) EventType.no_event = EventType.no_event <;>
    simp [List.filter_singleton, h]

lemma mem_eventIdxsUpTo_le {types : List EventType} {i j : ℕ}
    (h : j ∈ eventIdxsUpTo types i) : j ≤ i := by
  unfold eventIdxsUpTo at h
  have := List.mem_range.mp (List.mem_of_mem_filter h)
  omega

lemma mem_eventIdxsUpTo_event {types : List EventType} {i j : ℕ}
    (h : j ∈ eventIdxsUpTo types i) :
    types.getD j .no_event ≠ .no_event := by
  have := List.of_mem_filter h
  simpa using this

lemma eventPeriodAt_eq_sub {types : List EventType} {i j : ℕ}
    (h : (eventIdxsUpTo types i).getLast? = some j) :
    eventPeriodAt types i = (i : ℤ) - (j : ℤ) := by
  unfold eventPeriodAt
  rw [h]

lemma eventPeriodAt_eq_self {types : List EventType} {i : ℕ}
    (h : (eventIdxsUpTo types i).getLast? = none) :
    eventPeriodAt types i = (i : ℤ) := by
  unfold eventPeriodAt
  rw [h]

lemma eventIdxsUpTo_getLast?_eq (types : List EventType) :
    ∀ i j : ℕ, j ≤ i → types.getD j .no_event ≠ .no_event →
      (∀ k, j < k → k ≤ i → types.getD k .no_event = .no_event) →
      (eventIdxsUpTo types i).getLast? = some j := by
  intro i
  induction i with
  | zero =>
    intro j hj hev _
    have hj0 : j = 0 := Nat.le_zero.mp hj
    subst hj0
    have h1 : eventIdxsUpTo types 0 = [0] := by
      unfold eventIdxsUpTo
      simp only [List.range_succ, List.range_zero, List.nil_append,
        List.filter_singleton]
      have hev' : ¬ (types[0]?.getD EventType.no_event = EventType.no_event) := by
        simpa [List.getD_eq_getElem?_getD] using hev
      simp [hev']
    rw [h1]; rfl
  | succ n ihn =>
    intro j hj hev hmax
    rcases Nat.lt_or_ge j (n + 1) with hlt | hge
    · have hne : types.getD (n + 1) .no_event = .no_event :=
        hmax (n + 1) (by omega) (le_refl _)
      rw [eventIdxsUpTo_succ, if_neg (not_not_intro hne), List.append_nil]
      exact ihn j (by omega) hev (fun k h1 h2 => hmax k h1 (by omega))
    · have hj1 : j = n + 1 := by omega
      subst hj1
      rw [eventIdxsUpTo_succ, if_pos hev, List.getLast?_concat]

lemma eventIdxsUpTo_eq_nil {types : List EventType} {i : ℕ}
    (h : ∀ k ≤ i, types.getD k .no_event = .no_event) :
    eventIdxsUpTo types i = [] := by
  unfold eventIdxsUpTo
  rw [List.filter_eq_nil_iff]
  intro a ha
  have ha' : a ≤ i := by have := List.mem_range.mp ha; omega
  have := h a ha'
  simpa using this

lemma eventPeriodAt_nonneg (types : List EventType) (i : ℕ) :
    0 ≤ eventPeriodAt types i := by
  cases h : (eventIdxsUpTo types i).getLast? with
  | none => rw [eventPeriodAt_eq_self h]; exact Int.ofNat_nonneg i
  | some j =>
    have hj : j ≤ i := mem_eventIdxsUpTo_le (List.mem_of_mem_getLast? h)
    rw [eventPeriodAt_eq_sub h]
    omega

lemma eventPeriodAt_eq_zero_iff (types : List EventType) (i : ℕ) :
    eventPeriodAt types i = 0 ↔
      (types.getD i .no_event ≠ .no_event ∨ i = 0) := by
  constructor
  · intro h0
    cases h : (eventIdxsUpTo types i).getLast? with
    | none =>
      rw [eventPeriodAt_eq_self h] at h0
      right; omega
    | some j =>
      rw [eventPeriodAt_eq_sub h] at h0
      have hj : j ≤ i := mem_eventIdxsUpTo_le (List.mem_of_mem_getLast? h)
      have hji : j = i := by omega
      subst hji
      exact Or.inl (mem_eventIdxsUpTo_event (List.mem_of_mem_getLast? h))
  · intro h
    rcases h with hev | h0
    · rw [eventPeriodAt_eq_sub
        (eventIdxsUpTo_getLast?_eq types i i (le_refl i) hev
          (fun k h1 h2 => by omega))]
      omega
    · subst h0
      cases h : (eventIdxsUpTo types 0).getLast? with
      | none => rw [eventPeriodAt_eq_self h]; rfl
      | some j =>
        have hj : j ≤ 0 := mem_eventIdxsUpTo_le (List.mem_of_mem_getLast? h)
        rw [eventPeriodAt_eq_sub h]
        omega

/-- Appending one row to the prefix extends the filtered event-index list
by the new index exactly when the new row is an event. -/
lemma filterIdx_concat (pre : List EventType) (t : EventType) :
    (List.range (pre ++ [t]).length).filter
        (fun j => (pre ++ [t]).getD j .no_event ≠ .no_event) =
      ((List.range pre.length).filter
        (fun j => pre.getD j .no_event ≠ .no_event)) ++
      (if t ≠ EventType.no_event then [pre.length] else []) := by
  rw [List.length_append, List.length_singleton, List.range_succ,
    List.filter_append]
  congr 1
  · apply List.filter_congr
    intro j hj
    have hj' : j < pre.length := List.mem_range.mp hj
    rw [List.getD_append _ _ _ _ hj']
  · have hT : (pre ++ [t]).getD pre.length .no_event = t := by
      rw [List.getD_append_right _ _ _ _ (le_refl _)]
      simp
    rw [List.filter_singleton, hT]
    by_cases ht : t = EventType.no_event <;> simp [ht]

/-- The re-scan at the head position of the suffix only looks at the prefix
and the head row. -/
lemma eventPeriodAt_head (pre suf : List EventType) (t : EventType) :
    eventPeriodAt (pre ++ t :: suf) pre.length =
      (match ((List.range (pre ++ [t]).length).filter
          (fun j => (pre ++ [t]).getD j .no_event ≠ .no_event)).getLast? with
      | some j => (pre.length : ℤ) - (j : ℤ)
      | none => (pre.length : ℤ)) := by
  have hidx : eventIdxsUpTo (pre ++ t :: suf) pre.length =
      (List.range (pre ++ [t]).length).filter
        (fun j => (pre ++ [t]).getD j .no_event ≠ .no_event) := by
    unfold eventIdxsUpTo
    rw [List.length_append, List.length_singleton]
    apply List.filter_congr
    intro j hj
    have hj' : j < pre.length + 1 := List.mem_range.mp hj
    rcases Nat.lt_or_ge j pre.length with h | h
    · rw [List.getD_append _ _ _ _ h, List.getD_append _ _ _ _ h]
    · have hj2 : j = pre.length := by omega
      subst hj2
      rw [List.getD_append_right _ _ _ _ (le_refl _),
          List.getD_append_right _ _ _ _ (le_refl _)]
      simp
  unfold eventPeriodAt
  rw [hidx]

/-- The single-pass cursor computation agrees with the per-row re-scan on
any suffix, provided the cursor is the last event index of the prefix. -/
lemma periodsFrom_spec : ∀ (suf pre : List EventType),
    periodsFrom (((List.range pre.length).filter
        (fun j => pre.getD j .no_event ≠ .no_event)).getLast?) pre.length suf =
      (List.range suf.length).map
        (fun k => eventPeriodAt (pre ++ suf) (pre.length + k)) := by
  intro suf
  induction suf with
  | nil => intro pre; simp [periodsFrom]
  | cons t ts ih =>
    intro pre
    rw [periodsFrom]
    have hlast : (if t ≠ EventType.no_event then some pre.length else
        ((List.range pre.length).filter
          (fun j => pre.getD j .no_event ≠ .no_event)).getLast?) =
        ((List.range (pre ++ [t]).length).filter
          (fun j => (pre ++ [t]).getD j .no_event ≠ .no_event)).getLast? := by
      rw [filterIdx_concat]
      by_cases ht : t = EventType.no_event
      · simp [ht]
      · simp [ht, List.getLast?_concat]
    have htail := ih (pre ++ [t])
    rw [List.length_append, List.length_singleton] at htail
    rw [List.append_assoc, List.singleton_append] at htail
    simp only [hlast]
    rw [List.length_cons, List.range_succ_eq_map, List.map_cons,
      List.map_map]
    congr 1
    · rw [← eventPeriodAt_head pre ts t]
      rw [Nat.add_zero]
    · rw [show (pre ++ [t]).length = pre.length + 1 from by simp]
      rw [htail]
      apply List.map_congr_left
      intro k _
      simp only [Function.comp_apply]
      rw [show pre.length + 1 + k = pre.length + Nat.succ k by omega]

/-- The linear cursor pass equals the quadratic per-row re-scan. -/
lemma eventPeriodsLinear_eq (types : List EventType) :
    eventPeriodsLinear types = eventPeriods types := by
  have h := periodsFrom_spec types []
  simp only [List.length_nil, List.range_zero, List.filter_nil,
    List.getLast?_nil, List.nil_append, Nat.zero_add] at h
  unfold eventPeriodsLinear eventPeriods
  exact h

/-! ## Concrete step evaluations at τ = 1/50 (2%) -/

lemma step_up100_at100 : dcStep (1/50) ⟨.up, 100⟩ 100 =
    (⟨.up, 100⟩, ⟨100, .no_event, 0, 0⟩) := by
  norm_num [dcStep]

lemma step_up100_at101 : dcStep (1/50) ⟨.up, 100⟩ 101 =
    (⟨.up, 100⟩, ⟨101, .no_event, 0, 0⟩) := by
  norm_num [dcStep]

lemma step_up100_at103 : dcStep (1/50) ⟨.up, 100⟩ 103 =
    (⟨.down, 103⟩, ⟨103, .dc_up, 100, 3/100⟩) := by
  norm_num [dcStep]

lemma step_down103_at103 : dcStep (1/50) ⟨.down, 103⟩ 103 =
    (⟨.down, 103⟩, ⟨103, .no_event, 0, 0⟩) := by
  norm_num [dcStep]

lemma step_down103_at96 : dcStep (1/50) ⟨.down, 103⟩ 96 =
    (⟨.up, 96⟩, ⟨96, .dc_down, 103, -7/103⟩) := by
  norm_num [dcStep]

lemma step_up96_at96 : dcStep (1/50) ⟨.up, 96⟩ 96 =
    (⟨.up, 96⟩, ⟨96, .no_event, 0, 0⟩) := by
  norm_num [dcStep]

lemma step_up96_at101 : dcStep (1/50) ⟨.up, 96⟩ 101 =
    (⟨.down, 101⟩, ⟨101, .dc_up, 96, 5/96⟩) := by
  norm_num [dcStep]

lemma scan_concrete7 : dcScan (1/50) ⟨.up, 100⟩ [100, 100, 103, 103, 96, 96, 101] =
    [⟨100, .no_event, 0, 0⟩, ⟨100, .no_event, 0, 0⟩, ⟨103, .dc_up, 100, 3/100⟩,
     ⟨103, .no_event, 0, 0⟩, ⟨96, .dc_down, 103, -7/103⟩, ⟨96, .no_event, 0, 0⟩,
     ⟨101, .dc_up, 96, 5/96⟩] := by
  simp only [dcScan, step_up100_at100, step_up100_at103, step_down103_at103,
    step_down103_at96, step_up96_at96, step_up96_at101]

lemma scan_concrete2 : dcScan (1/50) ⟨.up, 100⟩ [100, 103] =
    [⟨100, .no_event, 0, 0⟩, ⟨103, .dc_up, 100, 3/100⟩] := by
  simp only [dcScan, step_up100_at100, step_up100_at103]

lemma scan_concrete2' : dcScan (1/50) ⟨.up, 100⟩ [100, 101] =
    [⟨100, .no_event, 0, 0⟩, ⟨101, .no_event, 0, 0⟩] := by
  simp only [dcScan, step_up100_at100, step_up100_at101]

lemma eval_concrete7 : transform_to_dc_events (1/50) [100, 100, 103, 103, 96, 96, 101] =
    .annotated
      [⟨100, .no_event, 0, 0, 0⟩, ⟨100, .no_event, 0, 0, 1⟩,
       ⟨103, .dc_up, 100, 3/100, 0⟩, ⟨103, .no_event, 0, 0, 1⟩,
       ⟨96, .dc_down, 103, -7/103, 0⟩, ⟨96, .no_event, 0, 0, 1⟩,
       ⟨101, .dc_up, 96, 5/96, 0⟩] := by
  have h : transform_to_dc_events (1/50) [100, 100, 103, 103, 96, 96, 101] =
      .annotated (annotate (dcScan (1/50) ⟨.up, 100⟩
        [100, 100, 103, 103, 96, 96, 101])) := rfl
  rw [h, scan_concrete7]
  rfl

lemma eval_concrete2 : transform_to_dc_events (1/50) [100, 103] =
    .annotated [⟨100, .no_event, 0, 0, 0⟩, ⟨103, .dc_up, 100, 3/100, 0⟩] := by
  have h : transform_to_dc_events (1/50) [100, 103] =
      .annotated (annotate (dcScan (1/50) ⟨.up, 100⟩ [100, 103])) := rfl
  rw [h, scan_concrete2]
  rfl

lemma eval_concrete2' : transform_to_dc_events (1/50) [100, 101] =
    .annotated [⟨100, .no_event, 0, 0, 0⟩, ⟨101, .no_event, 0, 0, 1⟩] := by
  have h : transform_to_dc_events (1/50) [100, 101] =
      .annotated (annotate (dcScan (1/50) ⟨.up, 100⟩ [100, 101])) := rfl
  rw [h, scan_concrete2']
  rfl

/-! ## Claim theorems -/

/-- C1: for every price series and every threshold τ ∈ (0,1), the sequence
of non-`no_event` rows of the detector's Annotated Series, in row order,
strictly alternates: no two consecutive confirmed events share a type. -/
theorem dc_events_alternate (prices : List ℚ) (τ : ℚ) (h0 : 0 < τ) (h1 : τ < 1) :
    List.Chain' (· ≠ ·)
      (confirmedTypes (annotatedRows (transform_to_dc_events τ prices))) := by
  match prices with
  | [] => simp [transform_to_dc_events, annotatedRows, confirmedTypes]
  | [p] => simp [transform_to_dc_events, annotatedRows, confirmedTypes]
  | p :: q :: ps =>
    show List.Chain' (· ≠ ·)
      (confirmedTypes (annotate (dcScan τ ⟨.up, p⟩ (p :: q :: ps))))
    unfold confirmedTypes
    rw [annotate_map ARow.event_type DCRow.event_type (fun _ _ => rfl)]
    exact (dcScan_alternation τ (p :: q :: ps) ⟨.up, p⟩).1

theorem dc_events_alternate_witness :
    (0 : ℚ) < 1/50 ∧ (1 : ℚ)/50 < 1 ∧
    List.Chain' (· ≠ ·)
      (confirmedTypes (annotatedRows (transform_to_dc_events (1/50) [100, 103]))) :=
  ⟨by norm_num, by norm_num,
    dc_events_alternate [100, 103] (1/50) (by norm_num) (by norm_num)⟩

/-- C2: for every price series with at least 2 valid points and every
τ ∈ (0,1), the detector's per-row `(event_type, extreme_price, change_pct)`
outcomes are exactly the fold of the spec's step (initial state mode = up,
extreme_price = first valid price) over the observations in order. -/
theorem dc_detector_matches_spec_fold (τ : ℚ) (h0 : 0 < τ) (h1 : τ < 1)
    (p0 p1 : ℚ) (ps : List ℚ) :
    (annotatedRows (transform_to_dc_events τ (p0 :: p1 :: ps))).map cellsOf =
      specDetector τ (p0 :: p1 :: ps) := by
  show (annotate (dcScan τ ⟨.up, p0⟩ (p0 :: p1 :: ps))).map cellsOf =
    specDetector τ (p0 :: p1 :: ps)
  rw [annotate_map cellsOf
    (fun r => (r.event_type, r.extreme_price, r.change_pct)) (fun _ _ => rfl)]
  exact dcScan_spec τ (p0 :: p1 :: ps) .up p0

theorem dc_detector_matches_spec_fold_witness :
    (0 : ℚ) < 1/50 ∧ (1 : ℚ)/50 < 1 ∧
    (annotatedRows (transform_to_dc_events (1/50) [100, 103])).map cellsOf =
      specDetector (1/50) [100, 103] :=
  ⟨by norm_num, by norm_num,
    dc_detector_matches_spec_fold (1/50) (by norm_num) (by norm_num) 100 103 []⟩

/-- C3: on `[100,100,103,103,96,96,101]` at τ = 0.02 the detector confirms
exactly 3 events, alternating up/down/up: `dc_up` at the first row with
price 103 (`extreme_price` = 100, `change_pct` = 3/100 = 0.03), `dc_down`
at the first row with price 96 (`extreme_price` = 103, `change_pct` =
−7/103 ≈ −0.0680), and `dc_up` at the row with price 101 (`extreme_price`
= 96, `change_pct` = 5/96 ≈ 0.0521); every other row is `no_event`. -/
theorem dc_concrete_scenario :
    transform_to_dc_events (1/50) [100, 100, 103, 103, 96, 96, 101] =
      .annotated
        [⟨100, .no_event, 0, 0, 0⟩, ⟨100, .no_event, 0, 0, 1⟩,
         ⟨103, .dc_up, 100, 3/100, 0⟩, ⟨103, .no_event, 0, 0, 1⟩,
         ⟨96, .dc_down, 103, -7/103, 0⟩, ⟨96, .no_event, 0, 0, 1⟩,
         ⟨101, .dc_up, 96, 5/96, 0⟩] ∧
    confirmedTypes
        (annotatedRows (transform_to_dc_events (1/50) [100, 100, 103, 103, 96, 96, 101])) =
      [.dc_up, .dc_down, .dc_up] := by
  refine ⟨eval_concrete7, ?_⟩
  rw [eval_concrete7]
  rfl

/-- C5 (claim right, code wrong): with fewer than 2 valid prices the source
returns the plain input copy before adding any event column (lines 50-52 of
`dc_transformer.py`), contradicting both the claim ("annotated with
all-`no_event` rows") and the function's own docstring, which promises the
DC columns on the returned frame. -/
theorem insufficient_data_returns_unannotated :
    transform_to_dc_events (1/50) [] = .insufficient [] ∧
    transform_to_dc_events (1/50) [100] = .insufficient [100] :=
  ⟨rfl, rfl⟩

/-- C6 counterexample: on the 2-point series `[100,101]` (no confirmed
event at τ = 0.02) the sensitivity table is empty although one threshold
was supplied: a threshold that confirms no event gets no summary row, so
the table does not contain one row per threshold in the list. -/
theorem threshold_sensitivity_skips_zero_event_threshold :
    analyze_threshold_sensitivity [100, 101] [1/50] = .ok [] ∧
    [(1 : ℚ)/50].length = 1 := by
  constructor
  · simp only [analyze_threshold_sensitivity]
    rw [eval_concrete2']
    simp [dcEvents]
  · rfl

/-- C6 amended: for every price series with at least 2 valid points, the
sensitivity analysis returns one summary row per threshold that confirms
at least one event (thresholds confirming none are skipped), each row
derived from its own independent invocation of the detector with no state
shared across thresholds. -/
theorem threshold_sensitivity_rows (p0 p1 : ℚ) (ps ts : List ℚ) :
    analyze_threshold_sensitivity (p0 :: p1 :: ps) ts =
      .ok (ts.filterMap (sensSummary (p0 :: p1 :: ps))) := by
  induction ts with
  | nil => rfl
  | cons τ ts ih =>
    have htr : transform_to_dc_events τ (p0 :: p1 :: ps) =
        .annotated (annotate (dcScan τ ⟨.up, p0⟩ (p0 :: p1 :: ps))) := rfl
    simp only [analyze_threshold_sensitivity, List.filterMap_cons, sensSummary,
      htr, ih]
    by_cases hc :
        0 < (dcEvents (annotate (dcScan τ ⟨.up, p0⟩ (p0 :: p1 :: ps)))).length <;>
      simp [hc]

/-- C7 counterexample: on the empty Annotated Series the source raises
`ZeroDivisionError` (the `n_events / total_rows` entry divides 0 by 0)
instead of returning a statistics record, although the `dc_down` count is
0 there. -/
theorem basic_statistics_empty_errors :
    calculate_basic_statistics [] = .error "ZeroDivisionError" ∧
    downCount [] = 0 :=
  ⟨rfl, rfl⟩

/-- C7 amended: for every nonempty Annotated Series the basic-statistics
function returns (without error) a record whose up/down ratio is the up
count divided by the down count when the down count is positive and
not-a-number (`none`) when it is 0; an Annotated Series with 2 `dc_up` and
1 `dc_down` events yields ratio 2. -/
theorem basic_statistics_ratio :
    (∀ (r : ARow) (rs : List ARow),
      (calculate_basic_statistics (r :: rs)).map (fun s => s.ratio_up_down) =
        .ok (if 0 < downCount (r :: rs) then
            some ((upCount (r :: rs) : ℚ) / (downCount (r :: rs) : ℚ))
          else none)) ∧
    (calculate_basic_statistics
        [⟨103, .dc_up, 100, 3/100, 0⟩, ⟨96, .dc_down, 103, -7/103, 0⟩,
         ⟨101, .dc_up, 96, 5/96, 0⟩]).map (fun s => s.ratio_up_down) =
      .ok (some 2) := by
  constructor
  · intro r rs
    unfold calculate_basic_statistics
    rw [if_neg (by simp)]
    rfl
  · have h : (calculate_basic_statistics
        [⟨103, .dc_up, 100, 3/100, 0⟩, ⟨96, .dc_down, 103, -7/103, 0⟩,
         ⟨101, .dc_up, 96, 5/96, 0⟩]).map (fun s => s.ratio_up_down) =
        .ok (if 0 < downCount
            [⟨103, .dc_up, 100, 3/100, 0⟩, ⟨96, .dc_down, 103, -7/103, 0⟩,
             ⟨101, .dc_up, 96, 5/96, 0⟩] then
          some ((upCount
            [⟨103, .dc_up, 100, 3/100, 0⟩, ⟨96, .dc_down, 103, -7/103, 0⟩,
             ⟨101, .dc_up, 96, 5/96, 0⟩] : ℚ) /
            (downCount
            [⟨103, .dc_up, 100, 3/100, 0⟩, ⟨96, .dc_down, 103, -7/103, 0⟩,
             ⟨101, .dc_up, 96, 5/96, 0⟩] : ℚ))
          else none) := by
      unfold calculate_basic_statistics
      rw [if_neg (by simp)]
      rfl
    have hu : upCount
        [⟨103, .dc_up, 100, 3/100, 0⟩, ⟨96, .dc_down, 103, -7/103, 0⟩,
         ⟨101, .dc_up, 96, 5/96, 0⟩] = 2 := rfl
    have hd : downCount
        [⟨103, .dc_up, 100, 3/100, 0⟩, ⟨96, .dc_down, 103, -7/103, 0⟩,
         ⟨101, .dc_up, 96, 5/96, 0⟩] = 1 := rfl
    rw [h, hu, hd]
    norm_num

/-- C4: for every Annotated Series (any `event_type` column) and row index
`i`, the annotator's `event_period[i]` equals `i − j` for `j` the latest
confirmed-event index `≤ i` and equals `i` when no event exists at or
before `i`; it is non-negative on every row, zero exactly on
confirmed-event rows (or on row 0); and the linear single-pass cursor
computation produces values identical to the per-row re-scan. -/
theorem event_period_rescan_spec (types : List EventType) (i : ℕ)
    (hi : i < types.length) :
    (∀ j : ℕ, j ≤ i → types.getD j .no_event ≠ .no_event →
      (∀ k, j < k → k ≤ i → types.getD k .no_event = .no_event) →
      eventPeriodAt types i = (i : ℤ) - (j : ℤ)) ∧
    ((∀ k, k ≤ i → types.getD k .no_event = .no_event) →
      eventPeriodAt types i = (i : ℤ)) ∧
    0 ≤ eventPeriodAt types i ∧
    (eventPeriodAt types i = 0 ↔
      (types.getD i .no_event ≠ .no_event ∨ i = 0)) ∧
    eventPeriodsLinear types = eventPeriods types := by
  refine ⟨?_, ?_, eventPeriodAt_nonneg types i,
    eventPeriodAt_eq_zero_iff types i, eventPeriodsLinear_eq types⟩
  · intro j hj hev hmax
    exact eventPeriodAt_eq_sub
      (eventIdxsUpTo_getLast?_eq types i j hj hev hmax)
  · intro hall
    exact eventPeriodAt_eq_self (by rw [eventIdxsUpTo_eq_nil hall]; rfl)

theorem event_period_rescan_spec_witness :
    2 < ([EventType.no_event, EventType.dc_up, EventType.no_event]).length ∧
    0 ≤ eventPeriodAt [EventType.no_event, EventType.dc_up, EventType.no_event] 2 ∧
    eventPeriodsLinear [EventType.no_event, EventType.dc_up, EventType.no_event] =
      eventPeriods [EventType.no_event, EventType.dc_up, EventType.no_event] :=
  ⟨by decide,
    (event_period_rescan_spec _ 2 (by decide)).2.2.1,
    (event_period_rescan_spec _ 2 (by decide)).2.2.2.2⟩

/-- C8: for every series of strictly positive prices and every τ ∈ (0,1),
every confirmed-event row of the detector's output has `change_pct`
strictly positive for `dc_up` and strictly negative for `dc_down`. -/
theorem change_pct_sign (prices : List ℚ) (τ : ℚ) (h0 : 0 < τ) (h1 : τ < 1)
    (hpos : ∀ p ∈ prices, 0 < p) :
    ∀ r ∈ annotatedRows (transform_to_dc_events τ prices),
      (r.event_type = .dc_up → 0 < r.change_pct) ∧
      (r.event_type = .dc_down → r.change_pct < 0) := by
  match prices with
  | [] => intro r hr; simp [transform_to_dc_events, annotatedRows] at hr
  | [p] => intro r hr; simp [transform_to_dc_events, annotatedRows] at hr
  | p :: q :: ps =>
    intro r hr
    have hr' : r ∈ annotate (dcScan τ ⟨.up, p⟩ (p :: q :: ps)) := hr
    obtain ⟨r', hmem, _, htype, _, hchg⟩ := mem_annotate hr'
    have hp0 : (0 : ℚ) < p := hpos p (List.mem_cons_self _ _)
    have h := dcScan_sign τ h0 (p :: q :: ps) ⟨.up, p⟩ hp0 hpos r' hmem
    rw [htype, hchg]
    exact h

theorem change_pct_sign_witness :
    (0 : ℚ) < 1/50 ∧ (1 : ℚ)/50 < 1 ∧ (∀ p ∈ ([100, 103] : List ℚ), 0 < p) ∧
    ∀ r ∈ annotatedRows (transform_to_dc_events (1/50) [100, 103]),
      (r.event_type = .dc_up → 0 < r.change_pct) ∧
      (r.event_type = .dc_down → r.change_pct < 0) :=
  ⟨by norm_num, by norm_num, by norm_num [List.forall_mem_cons],
    change_pct_sign [100, 103] (1/50) (by norm_num) (by norm_num)
      (by norm_num [List.forall_mem_cons])⟩

/-- C9: for every price series and τ ∈ (0,1), every `no_event` row of the
output carries the sentinels `extreme_price = 0` and `change_pct = 0`,
while every event row's stored `change_pct` is the relative change from its
stored (pre-update) `extreme_price` to its stored triggering price. -/
theorem sentinel_cells (prices : List ℚ) (τ : ℚ) (h0 : 0 < τ) (h1 : τ < 1) :
    ∀ r ∈ annotatedRows (transform_to_dc_events τ prices),
      (r.event_type = .no_event → r.extreme_price = 0 ∧ r.change_pct = 0) ∧
      (r.event_type ≠ .no_event →
        r.change_pct = (r.price - r.extreme_price) / r.extreme_price) := by
  match prices with
  | [] => intro r hr; simp [transform_to_dc_events, annotatedRows] at hr
  | [p] => intro r hr; simp [transform_to_dc_events, annotatedRows] at hr
  | p :: q :: ps =>
    intro r hr
    have hr' : r ∈ annotate (dcScan τ ⟨.up, p⟩ (p :: q :: ps)) := hr
    obtain ⟨r', hmem, hprice, htype, hext, hchg⟩ := mem_annotate hr'
    have h := dcScan_cells τ (p :: q :: ps) ⟨.up, p⟩ r' hmem
    rw [htype, hext, hchg, hprice]
    exact h

theorem sentinel_cells_witness :
    (0 : ℚ) < 1/50 ∧ (1 : ℚ)/50 < 1 ∧
    ∀ r ∈ annotatedRows (transform_to_dc_events (1/50) [100, 103]),
      (r.event_type = .no_event → r.extreme_price = 0 ∧ r.change_pct = 0) ∧
      (r.event_type ≠ .no_event →
        r.change_pct = (r.price - r.extreme_price) / r.extreme_price) :=
  ⟨by norm_num, by norm_num,
    sentinel_cells [100, 103] (1/50) (by norm_num) (by norm_num)⟩

/-- C10 counterexample: on `[100, 103]` at τ = 0.02 the row with price 103
is a confirmed `dc_up` whose `event_period` value is 0, not ≥ 1 — the
annotator's inclusive `<=` boundary puts the event itself into its own
look-back, so `event_period` is 0 on every confirmed-event row. -/
theorem first_event_period_zero :
    ((annotatedRows (transform_to_dc_events (1/50) [100, 103])).getD 1
      dummyARow).event_type = .dc_up ∧
    ((annotatedRows (transform_to_dc_events (1/50) [100, 103])).getD 1
      dummyARow).event_period = 0 := by
  have h : annotatedRows (transform_to_dc_events (1/50) [100, 103]) =
      [⟨100, .no_event, 0, 0, 0⟩, ⟨103, .dc_up, 100, 3/100, 0⟩] := by
    rw [eval_concrete2]
    rfl
  rw [h]
  exact ⟨rfl, rfl⟩

/-- C10 amended: for strictly positive prices and τ ∈ (0,1) the detector
never confirms an event at the first valid row (`p ≥ p·(1+τ)` cannot hold),
so every confirmed-event row of the output has row index ≥ 1; the spec's
"first event at row index 0" case is unreachable (but `event_period` is 0,
not ≥ 1, on confirmed-event rows). -/
theorem no_event_at_first_row (prices : List ℚ) (τ : ℚ) (h0 : 0 < τ)
    (h1 : τ < 1) (hpos : ∀ p ∈ prices, 0 < p) :
    ∀ i, i < (annotatedRows (transform_to_dc_events τ prices)).length →
      ((annotatedRows (transform_to_dc_events τ prices)).getD i
        dummyARow).event_type ≠ .no_event → 1 ≤ i := by
  match prices with
  | [] => intro i hi; simp [transform_to_dc_events, annotatedRows] at hi
  | [p] => intro i hi; simp [transform_to_dc_events, annotatedRows] at hi
  | p :: q :: ps =>
    intro i _ hev
    by_contra hlt
    have hi0 : i = 0 := by omega
    subst hi0
    apply hev
    have hp0 : (0 : ℚ) < p := hpos p (List.mem_cons_self _ _)
    show ((annotate (dcScan τ ⟨.up, p⟩ (p :: q :: ps))).getD 0
      dummyARow).event_type = .no_event
    rw [dcScan]
    rw [dcStep_self τ p h0 hp0]
    simp [annotate, eventPeriods, List.range_succ_eq_map]

theorem no_event_at_first_row_witness :
    (0 : ℚ) < 1/50 ∧ (1 : ℚ)/50 < 1 ∧ (∀ p ∈ ([100, 103] : List ℚ), 0 < p) ∧
    ∀ i, i < (annotatedRows (transform_to_dc_events (1/50) [100, 103])).length →
      ((annotatedRows (transform_to_dc_events (1/50) [100, 103])).getD i
        dummyARow).event_type ≠ .no_event → 1 ≤ i :=
  ⟨by norm_num, by norm_num, by norm_num [List.forall_mem_cons],
    no_event_at_first_row [100, 103] (1/50) (by norm_num) (by norm_num)
      (by norm_num [List.forall_mem_cons])⟩
